import Mathlib

/-!
# Verification of the `beat-social` post scheduler (`src/scheduler.py`)

This file gives a shallow embedding of the `PostScheduler` class from
`src/scheduler.py` and proves the specification claims about it.

Modelling conventions:
* Python dicts keyed by post id become association lists (`List (String × Job)`)
  with Python's insertion-order semantics (`slookup` / `supdate`).
* Wall-clock times are seconds since an epoch (`Nat`).  `strftime` renderings
  are modelled by `fmtDT` / `fmtHM`; the `%Y-%m-%d` calendar date is abstracted
  to the day index since the epoch (the calendar conversion is irrelevant to
  every claim).  Python's `str(int)` decimal rendering is modelled by `natStr`.
* `os.path.exists` becomes an explicit filesystem oracle `fs : String → Bool`.
* The simulated platform API outcome (`random.random() < 0.9` in the source)
  is nondeterministic, so it is modelled by an explicit oracle `api : Bool`
  giving the outcome of the simulated API call.
* The `schedule` library's registry of timed jobs becomes the `triggers`
  field: `schedule.every().<day>.at(<time>).do(...).tag(id)` appends a
  `Trigger`, `schedule.clear(id)` removes every trigger with that tag.
* `datetime.datetime.now()` / `time.time()` become explicit `Nat` parameters.
-/

namespace BeatSocial

/-- Decimal digit characters of `n`, fuel-based so that concrete values reduce
by `rfl`/`decide`.  Models Python's `str(int)` (used by the f-string that
builds post ids).  The accumulator holds the already-produced low digits. -/
def natDigitsCore : Nat → Nat → List Char → List Char
  | 0, _, acc => acc
  | fuel + 1, n, acc =>
    if n < 10 then Nat.digitChar n :: acc
    else natDigitsCore fuel (n / 10) (Nat.digitChar (n % 10) :: acc)

/-- Decimal string of a natural number; models Python's `str(int)`. -/
def natStr (n : Nat) : String := ⟨natDigitsCore (n + 1) n []⟩

/-- A content reference: Python's `content_path` is either a single path
string or a list of path strings. -/
inductive ContentPath where
  | single (p : String)
  | multi (ps : List String)
  deriving Repr, DecidableEq

/-- One scheduled post, mirroring the `post_data` dict created in
`schedule_post` (`src/scheduler.py` lines 70-82). -/
structure Job where
  id : String
  platform : String
  content_path : ContentPath
  caption : String
  hashtags : List String
  scheduled_time : String
  status : String
  attempts : Nat
  posted_time : Option String
  error : Option String
  deriving Repr, DecidableEq

/-- One registered timer of the `schedule` library:
`schedule.every().<day>.at(<time>).do(...).tag(tag)`. -/
structure Trigger where
  tag : String
  day : String
  atTime : String
  deriving Repr, DecidableEq

/-- The mutable state of a `PostScheduler`: the `scheduled_posts` dict and the
`schedule` library's registry of triggers. -/
structure SchedState where
  scheduled_posts : List (String × Job)
  triggers : List Trigger
  deriving Repr, DecidableEq

/-- A freshly initialised scheduler (empty schedule file, no triggers). -/
def emptyState : SchedState := { scheduled_posts := [], triggers := [] }

/-- Python dict lookup `d[k]` / `k in d` on the association list. -/
def slookup : List (String × Job) → String → Option Job
  | [], _ => none
  | (k0, v0) :: rest, k => if k0 = k then some v0 else slookup rest k

/-- Python dict write `d[k] = v`: replace in place if the key is present
(keeping its position), append otherwise. -/
def supdate : List (String × Job) → String → Job → List (String × Job)
  | [], k, v => [(k, v)]
  | (k0, v0) :: rest, k, v =>
    if k0 = k then (k, v) :: rest else (k0, v0) :: supdate rest k v

/-- Day index since the epoch of a timestamp. -/
def dayIndex (t : Nat) : Nat := t / 86400

/-- Midnight of the day containing `t` (`datetime.replace` keeps the date). -/
def dayStart (t : Nat) : Nat := t / 86400 * 86400

/-- Lowercase weekday name of a timestamp, indexing `strftime("%A")`. -/
def dayName (t : Nat) : String :=
  ["monday", "tuesday", "wednesday", "thursday", "friday", "saturday",
    "sunday"].getD (dayIndex t % 7) "monday"

/-- Two-digit zero padding used by `strftime` fields. -/
def pad2 (n : Nat) : String := if n < 10 then "0" ++ natStr n else natStr n

/-- `strftime("%H:%M")` of a timestamp. -/
def fmtHM (t : Nat) : String :=
  pad2 (t % 86400 / 3600) ++ ":" ++ pad2 (t % 3600 / 60)

/-- `strftime("%Y-%m-%d %H:%M:%S")` of a timestamp, with the calendar date
abstracted to the day index since the epoch. -/
def fmtDT (t : Nat) : String :=
  "day " ++ natStr (dayIndex t) ++ " " ++ fmtHM t ++ ":" ++ pad2 (t % 60)

/-- The post id generated at `src/scheduler.py` line 61:
`f"post_[int(time.time())]_[platform]"` (braces in the original). -/
def mkId (t : Nat) (platform : String) : String :=
  "post_" ++ natStr t ++ "_" ++ platform

/-- The trigger registered for a post at a target time
(`src/scheduler.py` lines 91-97 and 215-221). -/
def mkTrigger (post_id : String) (t : Nat) : Trigger :=
  { tag := post_id, day := dayName t, atTime := fmtHM t }

/-- `schedule_post` (`src/scheduler.py` lines 46-100).  `nowSec` is the value
of `time.time()` during the call and `post_time` the (explicitly supplied)
target time; the `post_time=None` default via `_get_optimal_post_time` is not
exercised by any claim. -/
def schedule_post (st : SchedState) (nowSec : Nat) (platform : String)
    (content_path : ContentPath) (caption : String) (hashtags : List String)
    (post_time : Nat) : SchedState × String :=
  let post_id := mkId nowSec platform
  let post_data : Job :=
    { id := post_id, platform := platform, content_path := content_path,
      caption := caption, hashtags := hashtags,
      scheduled_time := fmtDT post_time, status := "scheduled", attempts := 0,
      posted_time := none, error := none }
  ({ scheduled_posts := supdate st.scheduled_posts post_id post_data,
     triggers := st.triggers ++ [mkTrigger post_id post_time] }, post_id)

/-- `cancel_post` (`src/scheduler.py` lines 162-186). -/
def cancel_post (st : SchedState) (post_id : String) : SchedState × Bool :=
  match slookup st.scheduled_posts post_id with
  | none => (st, false)
  | some j =>
    ({ scheduled_posts :=
         supdate st.scheduled_posts post_id { j with status := "cancelled" },
       triggers := st.triggers.filter (fun tr => tr.tag ≠ post_id) }, true)

/-- `reschedule_post` (`src/scheduler.py` lines 188-224). -/
def reschedule_post (st : SchedState) (post_id : String)
    (new_post_time : Nat) : SchedState × Bool :=
  match slookup st.scheduled_posts post_id with
  | none => (st, false)
  | some j =>
    ({ scheduled_posts :=
         supdate st.scheduled_posts post_id
           { j with scheduled_time := fmtDT new_post_time,
                    status := "scheduled" },
       triggers := st.triggers.filter (fun tr => tr.tag ≠ post_id)
         ++ [mkTrigger post_id new_post_time] }, true)

/-- `get_scheduled_posts` (`src/scheduler.py` lines 226-250); `none` models a
falsy (absent) filter argument. -/
def get_scheduled_posts (st : SchedState) (platform : Option String)
    (status : Option String) : List (String × Job) :=
  st.scheduled_posts.filter fun kv =>
    (platform.all fun p => kv.2.platform == p) &&
    (status.all fun s => kv.2.status == s)

/-- Python's `str.lower()` (ASCII case folding suffices for the platform
names appearing in the program). -/
def pyLower (s : String) : String := ⟨s.data.map Char.toLower⟩

/-- Outcome of a platform publish helper: a normal return (the possibly
mutated `post_data` plus the boolean result) or a raised exception. -/
inductive PubOutcome where
  | ok (j : Job) (success : Bool)
  | exn (msg : String)
  deriving Repr, DecidableEq

/-- Shared tail of `_post_to_tiktok` once the single content path is in hand
(`src/scheduler.py` lines 401-420): existence check, then the simulated API
call whose outcome is the oracle `api`. -/
def tiktokGo (fs : String → Bool) (api : Bool) (j : Job) (p : String) :
    PubOutcome :=
  if fs p = false then
    .ok { j with error := some ("Content file not found: " ++ p) } false
  else if api then .ok j true
  else .ok { j with error := some "Simulated TikTok API error" } false

/-- `_post_to_tiktok` (`src/scheduler.py` lines 380-420).  A list-valued
`content_path` uses only its first element (`content_path[0]`); indexing an
empty list raises `IndexError`. -/
def post_to_tiktok (fs : String → Bool) (api : Bool) (j : Job) : PubOutcome :=
  match j.content_path with
  | .single p => tiktokGo fs api j p
  | .multi [] => .exn "list index out of range"
  | .multi (p :: _) => tiktokGo fs api j p

/-- The existence-check loop of `_post_to_instagram` (`src/scheduler.py`
lines 441-445): returns the job with `error` set at the first missing path. -/
def instaCheck (fs : String → Bool) (j : Job) : List String → Option Job
  | [] => none
  | p :: rest =>
    if fs p = false then
      some { j with error := some ("Content file not found: " ++ p) }
    else instaCheck fs j rest

/-- `_post_to_instagram` (`src/scheduler.py` lines 422 onward).  The file's
final lines are cut off in the checkout; the tail is modelled from the spec's
Publisher contract (success/failure result) and the visible TikTok variant:
on a failed simulated API call `error` is set and `False` returned. -/
def post_to_instagram (fs : String → Bool) (api : Bool) (j : Job) :
    PubOutcome :=
  let paths := match j.content_path with
    | .single p => [p]
    | .multi ps => ps
  match instaCheck fs j paths with
  | some j2 => .ok j2 false
  | none =>
    if api then .ok j true
    else .ok { j with error := some "Simulated Instagram API error" } false

/-- `_process_post` (`src/scheduler.py` lines 324-378).  `nowSec` is the value
of `datetime.datetime.now()` during the dispatch.  The returned `Bool` records
whether a platform publish helper (`_post_to_tiktok` / `_post_to_instagram`)
was invoked — the spec's "test Publisher that records calls". -/
def process_post (st : SchedState) (fs : String → Bool) (api : Bool)
    (nowSec : Nat) (post_id : String) : SchedState × Bool :=
  match slookup st.scheduled_posts post_id with
  | none => (st, false)
  | some pd0 =>
    let pd := { pd0 with status := "processing", attempts := pd0.attempts + 1 }
    let st1 : SchedState :=
      { st with scheduled_posts := supdate st.scheduled_posts post_id pd }
    let outcome : PubOutcome × Bool :=
      if pyLower pd.platform = "tiktok" then (post_to_tiktok fs api pd, true)
      else if pyLower pd.platform = "instagram" then
        (post_to_instagram fs api pd, true)
      else
        (.ok { pd with
                 error := some ("Unsupported platform: " ++ pd.platform) }
           false, false)
    match outcome with
    | (.exn msg, called) =>
      ({ st1 with scheduled_posts := (supdate st1.scheduled_posts post_id
           { pd with status := "error", error := some msg }) }, called)
    | (.ok pd2 success, called) =>
      if success then
        ({ st1 with scheduled_posts := (supdate st1.scheduled_posts post_id
             { pd2 with status := "posted",
                        posted_time := some (fmtDT nowSec),
                        error := none }) }, called)
      else if pd2.attempts ≥ 3 then
        ({ st1 with scheduled_posts := (supdate st1.scheduled_posts post_id
             { pd2 with status := "failed" }) }, called)
      else
        let st2 : SchedState :=
          { st1 with scheduled_posts := (supdate st1.scheduled_posts post_id
              { pd2 with status := "scheduled" }) }
        ((reschedule_post st2 post_id (nowSec + 1800)).1, called)

/-- Modelled from the spec: `_get_platform_optimal_times` is among the lines
cut off at the end of `src/scheduler.py`.  The spec describes it as "a
platform's ordered list of optimal time slots ... (a configured policy, not
learned)"; it is modelled as an arbitrary fixed policy returning `n`
hour/minute slots.  The claims depend only on the number of slots. -/
def platformOptimalTimes (_platform : String) (n : Nat) : List (Nat × Nat) :=
  (List.range n).map fun i => ((9 + 3 * i) % 24, 0)

/-- `current_date.replace(hour=hour, minute=minute, second=0, microsecond=0)`
for the slot `slot` of the optimal-times list. -/
def mkSlotTime (optTimes : List (Nat × Nat)) (dayDate : Nat) (slot : Nat) :
    Nat :=
  dayStart dayDate + (optTimes.getD slot (0, 0)).1 * 3600 +
    (optTimes.getD slot (0, 0)).2 * 60

/-- The inner loop of `schedule_multiple_posts` (`src/scheduler.py` lines
138-157): schedule one post per remaining item of the current day, walking the
time slots in order.  `clock k` is the `time.time()` value observed by the
`k`-th `schedule_post` call of the bulk operation. -/
def scheduleSlots (clock : Nat → Nat) (platform : String)
    (optTimes : List (Nat × Nat)) (dayDate : Nat) :
    SchedState → Nat → Nat → List (ContentPath × String × List String) →
    SchedState × List String × Nat
  | st, k, _slot, [] => (st, [], k)
  | st, k, slot, it :: rest =>
    let ptime := mkSlotTime optTimes dayDate slot
    let res := schedule_post st (clock k) platform it.1 it.2.1 it.2.2 ptime
    let tail := scheduleSlots clock platform optTimes dayDate res.1 (k + 1)
      (slot + 1) rest
    (tail.1, res.2 :: tail.2.1, tail.2.2)

/-- The day loop of `schedule_multiple_posts` (`src/scheduler.py` lines
132-157): each day takes `min posts_per_day remaining` items; the date
advances by one day per iteration. -/
def scheduleDaysLoop (clock : Nat → Nat) (platform : String)
    (optTimes : List (Nat × Nat)) (p : Nat) :
    Nat → SchedState → Nat → Nat →
    List (ContentPath × String × List String) → SchedState × List String
  | 0, st, _, _, _ => (st, [])
  | dl + 1, st, k, dayDate, items =>
    let todays := min p items.length
    let fst := scheduleSlots clock platform optTimes dayDate st k 0
      (items.take todays)
    let rest := scheduleDaysLoop clock platform optTimes p dl fst.1 fst.2.2
      (dayDate + 86400) (items.drop todays)
    (rest.1, fst.2.1 ++ rest.2)

/-- `schedule_multiple_posts` (`src/scheduler.py` lines 102-160).  The
`ValueError` raised on unequal list lengths becomes `Except.error`; it is
raised before any mutation, so the error case carries no new state.
`startDate` is the `datetime.datetime.now()` observed at line 129.  Python's
`ZeroDivisionError` for `posts_per_day = 0` is outside the model (every claim
assumes at least one post per day). -/
def schedule_multiple_posts (st : SchedState) (clock : Nat → Nat)
    (startDate : Nat) (platform : String) (posts_per_day : Nat)
    (content_paths : List ContentPath) (captions : List String)
    (hashtags_list : List (List String)) :
    Except String (SchedState × List String) :=
  if content_paths.length ≠ captions.length ∨
      captions.length ≠ hashtags_list.length then
    .error "Content paths, captions, and hashtags lists must be the same length"
  else
    let total := content_paths.length
    let days_needed := (total + posts_per_day - 1) / posts_per_day
    let optTimes := platformOptimalTimes platform posts_per_day
    let items := content_paths.zip (captions.zip hashtags_list)
    .ok (scheduleDaysLoop clock platform optTimes posts_per_day days_needed
      st 0 startDate items)

/-! ## Association-list (Python dict) lemmas -/

theorem slookup_supdate_self (l : List (String × Job)) (k : String) (v : Job) :
    slookup (supdate l k v) k = some v := by
  induction l with
  | nil => simp [supdate, slookup]
  | cons hd tl ih =>
    obtain ⟨k0, v0⟩ := hd
    by_cases h : k0 = k
    · simp [supdate, slookup, h]
    · simp [supdate, slookup, h, ih]

theorem slookup_supdate_ne (l : List (String × Job)) (k k' : String) (v : Job)
    (h : k' ≠ k) : slookup (supdate l k v) k' = slookup l k' := by
  induction l with
  | nil => simp [supdate, slookup, Ne.symm h]
  | cons hd tl ih =>
    obtain ⟨k0, v0⟩ := hd
    by_cases hk : k0 = k
    · subst hk
      simp [supdate, slookup, Ne.symm h]
    · simp only [supdate, if_neg hk, slookup]
      by_cases hk' : k0 = k'
      · simp [hk']
      · simp [hk', ih]

theorem supdate_of_slookup_eq (l : List (String × Job)) (k : String) (v : Job)
    (h : slookup l k = some v) : supdate l k v = l := by
  induction l with
  | nil => simp [slookup] at h
  | cons hd tl ih =>
    obtain ⟨k0, v0⟩ := hd
    by_cases hk : k0 = k
    · subst hk
      simp only [slookup, if_true, eq_self_iff_true, Option.some.injEq] at h
      simp [supdate, h]
    · simp only [slookup, if_neg hk] at h
      simp [supdate, hk, ih h]

theorem supdate_of_slookup_none (l : List (String × Job)) (k : String)
    (v : Job) (h : slookup l k = none) : supdate l k v = l ++ [(k, v)] := by
  induction l with
  | nil => simp [supdate]
  | cons hd tl ih =>
    obtain ⟨k0, v0⟩ := hd
    by_cases hk : k0 = k
    · simp [slookup, hk] at h
    · simp only [slookup, if_neg hk] at h
      simp [supdate, hk, ih h]

theorem supdate_supdate_self (l : List (String × Job)) (k : String)
    (v w : Job) : supdate (supdate l k v) k w = supdate l k w := by
  induction l with
  | nil => simp [supdate]
  | cons hd tl ih =>
    obtain ⟨k0, v0⟩ := hd
    by_cases hk : k0 = k
    · simp [supdate, hk]
    · simp [supdate, hk, ih]

theorem slookup_append_right (l1 l2 : List (String × Job)) (k : String)
    (h : slookup l1 k = none) :
    slookup (l1 ++ l2) k = slookup l2 k := by
  induction l1 with
  | nil => simp
  | cons hd tl ih =>
    obtain ⟨k0, v0⟩ := hd
    by_cases hk : k0 = k
    · simp [slookup, hk] at h
    · simp only [slookup, if_neg hk] at h
      simp [slookup, hk, ih h]

/-! ## Decimal rendering: `natStr` is injective and underscore-free -/

theorem natDigitsCore_append (fuel : Nat) :
    ∀ n acc, natDigitsCore fuel n acc = natDigitsCore fuel n [] ++ acc := by
  induction fuel with
  | zero => intro n acc; simp [natDigitsCore]
  | succ f ih =>
    intro n acc
    by_cases h : n < 10
    · simp [natDigitsCore, h]
    · simp only [natDigitsCore, if_neg h]
      rw [ih (n / 10) (Nat.digitChar (n % 10) :: acc),
        ih (n / 10) [Nat.digitChar (n % 10)]]
      simp

theorem natDigitsCore_fuel (f1 : Nat) :
    ∀ f2 n acc, n < f1 → n < f2 →
      natDigitsCore f1 n acc = natDigitsCore f2 n acc := by
  induction f1 with
  | zero => intro f2 n acc h1; omega
  | succ f ih =>
    intro f2 n acc h1 h2
    match f2, h2 with
    | f2' + 1, _ =>
      by_cases h : n < 10
      · simp [natDigitsCore, h]
      · simp only [natDigitsCore, if_neg h]
        have hd : n / 10 < n := Nat.div_lt_self (by omega) (by omega)
        exact ih f2' (n / 10) _ (by omega) (by omega)

theorem natStr_data_lt (n : Nat) (h : n < 10) :
    (natStr n).data = [Nat.digitChar n] := by
  simp [natStr, natDigitsCore, h]

theorem natStr_data_ge (n : Nat) (h : 10 ≤ n) :
    (natStr n).data = (natStr (n / 10)).data ++ [Nat.digitChar (n % 10)] := by
  have hd : n / 10 < n := Nat.div_lt_self (by omega) (by omega)
  have h1 : (natStr n).data = natDigitsCore n (n / 10)
      [Nat.digitChar (n % 10)] := by
    simp [natStr, natDigitsCore, Nat.not_lt.mpr h]
  rw [h1, natDigitsCore_append n (n / 10) [Nat.digitChar (n % 10)]]
  have h2 : (natStr (n / 10)).data = natDigitsCore (n / 10 + 1) (n / 10) [] :=
    rfl
  rw [h2, natDigitsCore_fuel n (n / 10 + 1) (n / 10) [] (by omega) (by omega)]

theorem natStr_data_ne_nil (n : Nat) : (natStr n).data ≠ [] := by
  by_cases h : n < 10
  · simp [natStr_data_lt n h]
  · simp [natStr_data_ge n (by omega)]

theorem natStr_mem_digit (n : Nat) :
    ∀ c ∈ (natStr n).data,
      c ∈ ['0', '1', '2', '3', '4', '5', '6', '7', '8', '9'] := by
  induction n using Nat.strong_induction_on with
  | _ n ih =>
    intro c hc
    by_cases h : n < 10
    · rw [natStr_data_lt n h] at hc
      simp only [List.mem_singleton] at hc
      subst hc
      revert h
      have hall : ∀ m, m < 10 →
          Nat.digitChar m ∈
            ['0', '1', '2', '3', '4', '5', '6', '7', '8', '9'] := by decide
      exact hall n
    · rw [natStr_data_ge n (by omega)] at hc
      rcases List.mem_append.mp hc with h1 | h2
      · exact ih (n / 10) (Nat.div_lt_self (by omega) (by omega)) c h1
      · simp only [List.mem_singleton] at h2
        subst h2
        have hall : ∀ m, m < 10 →
            Nat.digitChar m ∈
              ['0', '1', '2', '3', '4', '5', '6', '7', '8', '9'] := by decide
        exact hall (n % 10) (Nat.mod_lt _ (by omega))

theorem natStr_no_underscore (n : Nat) : '_' ∉ (natStr n).data := by
  intro h
  have := natStr_mem_digit n '_' h
  simp at this

theorem digitChar_inj : ∀ a < 10, ∀ b < 10,
    Nat.digitChar a = Nat.digitChar b → a = b := by decide

theorem natStr_inj (m : Nat) : ∀ n, natStr m = natStr n → m = n := by
  induction m using Nat.strong_induction_on with
  | _ m ih =>
    intro n h
    have hdata : (natStr m).data = (natStr n).data := by rw [h]
    by_cases hm : m < 10
    · by_cases hn : n < 10
      · rw [natStr_data_lt m hm, natStr_data_lt n hn] at hdata
        simp only [List.cons.injEq, and_true] at hdata
        exact digitChar_inj m hm n hn hdata
      · exfalso
        rw [natStr_data_lt m hm, natStr_data_ge n (by omega)] at hdata
        have hlen := congrArg List.length hdata
        simp only [List.length_cons, List.length_append, List.length_nil,
          List.length_singleton] at hlen
        have hpos : 0 < (natStr (n / 10)).data.length :=
          List.length_pos.mpr (natStr_data_ne_nil (n / 10))
        omega
    · by_cases hn : n < 10
      · exfalso
        rw [natStr_data_ge m (by omega), natStr_data_lt n hn] at hdata
        have hlen := congrArg List.length hdata
        simp only [List.length_cons, List.length_append, List.length_nil,
          List.length_singleton] at hlen
        have hpos : 0 < (natStr (m / 10)).data.length :=
          List.length_pos.mpr (natStr_data_ne_nil (m / 10))
        omega
      · rw [natStr_data_ge m (by omega), natStr_data_ge n (by omega)] at hdata
        have hrev := congrArg List.reverse hdata
        simp only [List.reverse_append, List.reverse_cons, List.reverse_nil,
          List.nil_append, List.singleton_append, List.cons.injEq] at hrev
        obtain ⟨hlast, hinit⟩ := hrev
        have hdiv : (natStr (m / 10)).data = (natStr (n / 10)).data := by
          have := congrArg List.reverse hinit
          simpa using this
        have h1 : m / 10 = n / 10 :=
          ih (m / 10) (Nat.div_lt_self (by omega) (by omega)) (n / 10)
            (String.ext hdiv)
        have h2 : m % 10 = n % 10 :=
          digitChar_inj (m % 10) (Nat.mod_lt _ (by omega)) (n % 10)
            (Nat.mod_lt _ (by omega)) hlast
        omega

theorem split_at_underscore :
    ∀ (l1 : List Char) (r1 : List Char) (l2 : List Char) (r2 : List Char),
      '_' ∉ l1 → '_' ∉ l2 →
      l1 ++ '_' :: r1 = l2 ++ '_' :: r2 → l1 = l2 ∧ r1 = r2 := by
  intro l1
  induction l1 with
  | nil =>
    intro r1 l2 r2 _ h2 heq
    cases l2 with
    | nil => simpa using heq
    | cons c cs =>
      simp only [List.nil_append, List.cons_append, List.cons.injEq] at heq
      exact absurd (heq.1 ▸ List.mem_cons_self c cs) h2
  | cons c cs ih =>
    intro r1 l2 r2 h1 h2 heq
    cases l2 with
    | nil =>
      simp only [List.cons_append, List.nil_append, List.cons.injEq] at heq
      exact absurd (heq.1 ▸ List.mem_cons_self c cs) h1
    | cons d ds =>
      simp only [List.cons_append, List.cons.injEq] at heq
      obtain ⟨hcd, htail⟩ := heq
      have := ih r1 ds r2 (fun hx => h1 (List.mem_cons_of_mem c hx))
        (fun hx => h2 (List.mem_cons_of_mem d hx)) htail
      exact ⟨by rw [hcd, this.1], this.2⟩

theorem mkId_inj (t1 t2 : Nat) (p1 p2 : String)
    (h : mkId t1 p1 = mkId t2 p2) : t1 = t2 ∧ p1 = p2 := by
  have hdata := congrArg String.data h
  simp only [mkId, String.data_append] at hdata
  simp only [List.append_assoc, List.cons_append, List.nil_append,
    List.singleton_append, List.cons.injEq, true_and] at hdata
  have hsplit := split_at_underscore (natStr t1).data p1.data
    (natStr t2).data p2.data (natStr_no_underscore t1)
    (natStr_no_underscore t2) hdata
  exact ⟨natStr_inj t1 t2 (String.ext hsplit.1), String.ext hsplit.2⟩

/-! ## Shape of the publish helpers: they mutate only the `error` field -/

theorem tiktokGo_shape (fs : String → Bool) (api : Bool) (j : Job)
    (p : String) : ∃ e s, tiktokGo fs api j p = .ok { j with error := e } s := by
  unfold tiktokGo
  by_cases h1 : fs p = false
  · exact ⟨some ("Content file not found: " ++ p), false, by simp [h1]⟩
  · by_cases h2 : api
    · exact ⟨j.error, true, by simp [h1, h2]⟩
    · exact ⟨some "Simulated TikTok API error", false, by simp [h1, h2]⟩

theorem post_to_tiktok_ok_shape (fs : String → Bool) (api : Bool) (j j' : Job)
    (s : Bool) (h : post_to_tiktok fs api j = .ok j' s) :
    ∃ e, j' = { j with error := e } := by
  rcases hc : j.content_path with p | ps
  · have h2 : tiktokGo fs api j p = PubOutcome.ok j' s := by
      unfold post_to_tiktok at h
      rw [hc] at h
      exact h
    obtain ⟨e, s', hgo⟩ := tiktokGo_shape fs api j p
    rw [hgo] at h2
    injection h2 with h1 _
    refine ⟨e, ?_⟩
    rw [← h1, hc]
  · cases ps with
    | nil =>
      have h2 : PubOutcome.exn "list index out of range" =
          PubOutcome.ok j' s := by
        unfold post_to_tiktok at h
        rw [hc] at h
        exact h
      exact absurd h2 (by simp)
    | cons q qs =>
      have h2 : tiktokGo fs api j q = PubOutcome.ok j' s := by
        unfold post_to_tiktok at h
        rw [hc] at h
        exact h
      obtain ⟨e, s', hgo⟩ := tiktokGo_shape fs api j q
      rw [hgo] at h2
      injection h2 with h1 _
      refine ⟨e, ?_⟩
      rw [← h1, hc]

theorem instaCheck_shape (fs : String → Bool) (j : Job) :
    ∀ ps j2, instaCheck fs j ps = some j2 → ∃ e, j2 = { j with error := e } := by
  intro ps
  induction ps with
  | nil => intro j2 h; simp [instaCheck] at h
  | cons p rest ih =>
    intro j2 h
    by_cases hp : fs p = false
    · simp only [instaCheck, if_pos hp, Option.some.injEq] at h
      exact ⟨some ("Content file not found: " ++ p), h.symm⟩
    · simp only [instaCheck, if_neg hp] at h
      exact ih j2 h

theorem post_to_instagram_ok_shape (fs : String → Bool) (api : Bool)
    (j j' : Job) (s : Bool) (h : post_to_instagram fs api j = .ok j' s) :
    ∃ e, j' = { j with error := e } := by
  simp only [post_to_instagram] at h
  cases hck : instaCheck fs j (match j.content_path with
      | .single p => [p]
      | .multi ps => ps) with
  | none =>
    rw [hck] at h
    by_cases h2 : api
    · rw [if_pos h2] at h
      injection h with h1 _
      exact ⟨j.error, h1.symm⟩
    · rw [if_neg h2] at h
      injection h with h1 _
      exact ⟨some "Simulated Instagram API error", h1.symm⟩
  | some j2 =>
    rw [hck] at h
    obtain ⟨e, he⟩ := instaCheck_shape fs j _ j2 hck
    injection h with h1 _
    exact ⟨e, by rw [← h1, he]⟩

/-! ## Concrete scenario used by counterexamples and witnesses -/

/-- A filesystem on which no path exists. -/
def fsNone : String → Bool := fun _ => false

/-- A filesystem on which every path exists. -/
def fsAll : String → Bool := fun _ => true

/-- One TikTok post scheduled at `time.time() = 100` for target time 5000. -/
def stOne : SchedState :=
  (schedule_post emptyState 100 "tiktok" (ContentPath.single "video1.mp4")
    "cap" [] 5000).1

/-- The id generated for the job of `stOne`. -/
def pid1 : String := "post_100_tiktok"

/-- The job record stored in `stOne`. -/
def jOne : Job :=
  { id := pid1, platform := "tiktok",
    content_path := ContentPath.single "video1.mp4", caption := "cap",
    hashtags := [], scheduled_time := fmtDT 5000, status := "scheduled",
    attempts := 0, posted_time := none, error := none }

/-! ## C5 — reschedule_post contract and frame -/

/-- C5: for every known job id and new time, `reschedule_post` returns true,
updates `scheduled_time` to the new time, resets `status` to `"scheduled"`,
and leaves every other job field (id, platform, content_path, caption,
hashtags, attempts, posted_time, error) unchanged; for an unknown id it
returns false and leaves the store unchanged. -/
theorem reschedule_post_contract (st : SchedState) (post_id : String)
    (t : Nat) :
    (slookup st.scheduled_posts post_id = none →
      reschedule_post st post_id t = (st, false)) ∧
    (∀ j, slookup st.scheduled_posts post_id = some j →
      (reschedule_post st post_id t).2 = true ∧
      slookup (reschedule_post st post_id t).1.scheduled_posts post_id =
        some { j with scheduled_time := fmtDT t, status := "scheduled" } ∧
      ∀ k, k ≠ post_id →
        slookup (reschedule_post st post_id t).1.scheduled_posts k =
          slookup st.scheduled_posts k) := by
  constructor
  · intro h
    simp [reschedule_post, h]
  · intro j h
    refine ⟨by simp [reschedule_post, h], ?_, ?_⟩
    · simp [reschedule_post, h, slookup_supdate_self]
    · intro k hk
      simp [reschedule_post, h, slookup_supdate_ne _ _ _ _ hk]

/-- Witness for C5 at a concrete store: the single job of `stOne` is
rescheduled to time 9000, and an unknown id is rejected. -/
theorem reschedule_post_contract_witness :
    (slookup stOne.scheduled_posts pid1 = some jOne ∧
      (reschedule_post stOne pid1 9000).2 = true ∧
      slookup (reschedule_post stOne pid1 9000).1.scheduled_posts pid1 =
        some { jOne with scheduled_time := fmtDT 9000,
                         status := "scheduled" }) ∧
    (slookup stOne.scheduled_posts "nope" = none ∧
      reschedule_post stOne "nope" 9000 = (stOne, false)) := by
  have h1 : slookup stOne.scheduled_posts pid1 = some jOne := by decide
  have h2 : slookup stOne.scheduled_posts "nope" = none := by decide
  have c1 := (reschedule_post_contract stOne pid1 9000).2 jOne h1
  have c2 := (reschedule_post_contract stOne "nope" 9000).1 h2
  exact ⟨⟨h1, c1.1, c1.2.1⟩, ⟨h2, c2⟩⟩

/-! ## C6 — cancel_post contract and idempotence -/

/-- C6: `cancel_post` returns false when the id is unknown; for a known id it
marks the job cancelled and returns true; and it is idempotent: a second
`cancel_post` on the same id returns true again and changes nothing. -/
theorem cancel_post_contract (st : SchedState) (post_id : String) :
    (slookup st.scheduled_posts post_id = none →
      cancel_post st post_id = (st, false)) ∧
    (∀ j, slookup st.scheduled_posts post_id = some j →
      (cancel_post st post_id).2 = true ∧
      slookup (cancel_post st post_id).1.scheduled_posts post_id =
        some { j with status := "cancelled" } ∧
      cancel_post (cancel_post st post_id).1 post_id =
        ((cancel_post st post_id).1, true)) := by
  constructor
  · intro h
    simp [cancel_post, h]
  · intro j h
    have hlook : slookup (cancel_post st post_id).1.scheduled_posts post_id =
        some { j with status := "cancelled" } := by
      simp [cancel_post, h, slookup_supdate_self]
    refine ⟨by simp [cancel_post, h], hlook, ?_⟩
    simp only [cancel_post, h, slookup_supdate_self]
    simp only [Prod.mk.injEq, SchedState.mk.injEq, and_true]
    constructor
    · rw [supdate_supdate_self]
    · rw [List.filter_filter]
      simp

/-- Witness for C6 at a concrete store: cancel the job of `stOne` twice, and
reject an unknown id. -/
theorem cancel_post_contract_witness :
    (slookup stOne.scheduled_posts pid1 = some jOne ∧
      (cancel_post stOne pid1).2 = true ∧
      slookup (cancel_post stOne pid1).1.scheduled_posts pid1 =
        some { jOne with status := "cancelled" } ∧
      cancel_post (cancel_post stOne pid1).1 pid1 =
        ((cancel_post stOne pid1).1, true)) ∧
    (slookup stOne.scheduled_posts "nope" = none ∧
      cancel_post stOne "nope" = (stOne, false)) := by
  have h1 : slookup stOne.scheduled_posts pid1 = some jOne := by decide
  have h2 : slookup stOne.scheduled_posts "nope" = none := by decide
  have c1 := (cancel_post_contract stOne pid1).2 jOne h1
  have c2 := (cancel_post_contract stOne "nope").1 h2
  exact ⟨⟨h1, c1.1, c1.2.1, c1.2.2⟩, ⟨h2, c2⟩⟩

/-! ## C10 — cancel_post ignores the current status -/

/-- C10: `cancel_post` cancels any job present in the store regardless of its
current status — even a terminal `"posted"`, `"failed"` or `"error"` status
is overwritten with `"cancelled"` and the call returns true. -/
theorem cancel_post_any_status (st : SchedState) (post_id : String) (j : Job)
    (h : slookup st.scheduled_posts post_id = some j) :
    (cancel_post st post_id).2 = true ∧
    slookup (cancel_post st post_id).1.scheduled_posts post_id =
      some { j with status := "cancelled" } := by
  constructor
  · simp [cancel_post, h]
  · simp [cancel_post, h, slookup_supdate_self]

/-- The job of `stOne` after one successful dispatch at time 2000. -/
def jPosted : Job :=
  { jOne with status := "posted", attempts := 1, posted_time := some (fmtDT 2000), error := none }

/-- Witness for C10: cancelling the job of `stOne` after a successful dispatch
has put it in the terminal `"posted"` status still returns true and overwrites
the status with `"cancelled"`. -/
theorem cancel_post_any_status_witness :
    (slookup (process_post stOne fsAll true 2000 pid1).1.scheduled_posts pid1 =
      some jPosted) ∧
    (cancel_post (process_post stOne fsAll true 2000 pid1).1 pid1).2 = true ∧
    slookup
        (cancel_post (process_post stOne fsAll true 2000 pid1).1
          pid1).1.scheduled_posts pid1 =
      some { jPosted with status := "cancelled" } := by
  have h : slookup (process_post stOne fsAll true 2000 pid1).1.scheduled_posts
      pid1 = some jPosted := by decide
  have c := cancel_post_any_status (process_post stOne fsAll true 2000 pid1).1
    pid1 jPosted h
  exact ⟨h, c.1, c.2⟩

/-! ## C8 — bulk scheduling precondition -/

/-- C8: `schedule_multiple_posts` with unequal-length content, caption and
hashtag lists reports the caller contract error immediately: the result is
the `ValueError`, raised before any job is created, so no job is added and no
post id is returned. -/
theorem schedule_multiple_posts_unequal (st : SchedState) (clock : Nat → Nat)
    (startDate : Nat) (platform : String) (posts_per_day : Nat)
    (content_paths : List ContentPath) (captions : List String)
    (hashtags_list : List (List String))
    (h : ¬ (content_paths.length = captions.length ∧
            captions.length = hashtags_list.length)) :
    schedule_multiple_posts st clock startDate platform posts_per_day
        content_paths captions hashtags_list =
      .error
        "Content paths, captions, and hashtags lists must be the same length" := by
  have hcond : content_paths.length ≠ captions.length ∨
      captions.length ≠ hashtags_list.length := by tauto
  simp [schedule_multiple_posts, hcond]

/-- Witness for C8: two content items against one caption. -/
theorem schedule_multiple_posts_unequal_witness :
    (¬ (([ContentPath.single "a", ContentPath.single "b"] :
          List ContentPath).length = (["c"] : List String).length ∧
        (["c"] : List String).length = ([[]] : List (List String)).length)) ∧
    schedule_multiple_posts emptyState (fun k => k) 0 "tiktok" 2
        [ContentPath.single "a", ContentPath.single "b"] ["c"] [[]] =
      .error
        "Content paths, captions, and hashtags lists must be the same length" :=
  ⟨by decide,
    schedule_multiple_posts_unequal emptyState (fun k => k) 0 "tiktok" 2
      [ContentPath.single "a", ContentPath.single "b"] ["c"] [[]] (by decide)⟩

/-! ## C1 — missing content file at dispatch time -/

/-- C1 as stated is false: for a TikTok job whose content file does not exist,
`_post_to_tiktok` merely records the error and returns `False`
(`src/scheduler.py` lines 401-404), so `_process_post` takes the retryable
failure path, not the `"error"` status, and the incremented attempt counts
toward retry exhaustion.  Concretely, dispatching the job of `stOne` with no
file present leaves it `"scheduled"` (re-armed for retry) with `attempts = 1`.
-/
theorem missing_content_cex :
    (slookup (process_post stOne fsNone true 2000 pid1).1.scheduled_posts
        pid1).map Job.status ≠ some "error" ∧
    (slookup (process_post stOne fsNone true 2000 pid1).1.scheduled_posts
        pid1).map Job.status = some "scheduled" ∧
    (slookup (process_post stOne fsNone true 2000 pid1).1.scheduled_posts
        pid1).map Job.attempts = some 1 := by decide

/-- C1 amended: if a TikTok job's content file does not exist at dispatch
time, the publish step reports failure and `_process_post` follows the
retryable path — `attempts` is incremented (counting toward retry
exhaustion), and the job is set back to `"scheduled"` while fewer than 3
attempts have been made, or to `"failed"` at 3 attempts; it is never given
status `"error"` (that status is reserved for exceptions). -/
theorem missing_content_retry_path (st : SchedState) (fs : String → Bool)
    (api : Bool) (now : Nat) (post_id p : String) (j : Job)
    (hj : slookup st.scheduled_posts post_id = some j)
    (hplat : j.platform = "tiktok")
    (hpath : j.content_path = ContentPath.single p)
    (hfs : fs p = false) :
    (slookup (process_post st fs api now post_id).1.scheduled_posts
        post_id).map Job.status =
      some (if j.attempts + 1 ≥ 3 then "failed" else "scheduled") ∧
    (slookup (process_post st fs api now post_id).1.scheduled_posts
        post_id).map Job.attempts = some (j.attempts + 1) := by
  have hlow : pyLower "tiktok" = "tiktok" := by decide
  by_cases hA : j.attempts + 1 ≥ 3
  · simp [process_post, hj, hplat, hlow, post_to_tiktok, hpath, tiktokGo,
      hfs, hA, slookup_supdate_self]
  · simp [process_post, hj, hplat, hlow, post_to_tiktok, hpath, tiktokGo,
      hfs, hA, reschedule_post, slookup_supdate_self]

/-- Witness for C1 (amended) at the concrete store `stOne` with an empty
filesystem. -/
theorem missing_content_retry_path_witness :
    (slookup stOne.scheduled_posts pid1 = some jOne ∧
      jOne.platform = "tiktok" ∧
      jOne.content_path = ContentPath.single "video1.mp4" ∧
      fsNone "video1.mp4" = false) ∧
    ((slookup (process_post stOne fsNone true 2000 pid1).1.scheduled_posts
        pid1).map Job.status =
      some (if jOne.attempts + 1 ≥ 3 then "failed" else "scheduled") ∧
    (slookup (process_post stOne fsNone true 2000 pid1).1.scheduled_posts
        pid1).map Job.attempts = some (jOne.attempts + 1)) :=
  ⟨⟨by decide, by decide, by decide, by decide⟩,
    missing_content_retry_path stOne fsNone true 2000 pid1 "video1.mp4" jOne
      (by decide) (by decide) (by decide) (by decide)⟩

/-! ## C2 — cancelled job is still dispatched (code bug) -/

/-- C2 is the spec's requirement that a cancelled job is never published.
The code violates it: `_process_post` (`src/scheduler.py` lines 331-333)
only checks that the id is present in `scheduled_posts`, never the status, so
an already-queued id whose job was cancelled is still dispatched.  Concretely:
cancel the job of `stOne` (status becomes `"cancelled"`), then process the
queued id — the publish helper is invoked (the recorded flag is true) and the
job even ends up `"posted"` with `attempts = 1`. -/
theorem cancelled_job_still_published :
    (slookup (cancel_post stOne pid1).1.scheduled_posts pid1).map Job.status =
      some "cancelled" ∧
    (process_post (cancel_post stOne pid1).1 fsAll true 2000 pid1).2 = true ∧
    (slookup (process_post (cancel_post stOne pid1).1 fsAll true 2000
        pid1).1.scheduled_posts pid1).map Job.status = some "posted" ∧
    (slookup (process_post (cancel_post stOne pid1).1 fsAll true 2000
        pid1).1.scheduled_posts pid1).map Job.attempts = some 1 := by decide

/-! ## C3 — retry policy and retry exhaustion -/

/-- The job of `stOne` after one failing dispatch at time 2000. -/
def stFail1 : SchedState := (process_post stOne fsAll false 2000 pid1).1

/-- ... after a second failing dispatch at time 2200. -/
def stFail2 : SchedState := (process_post stFail1 fsAll false 2200 pid1).1

/-- ... after a third failing dispatch at time 2400. -/
def stFail3 : SchedState := (process_post stFail2 fsAll false 2400 pid1).1

/-- C3 as stated is false in its last conjunct: after the third failing
dispatch the job's status does become `"failed"` with `attempts = 3`, but the
failure branch of `_process_post` (`src/scheduler.py` lines 363-365) never
calls `schedule.clear`, so the job's (weekly-recurring) trigger — registered
by the retry reschedule of the second dispatch — stays armed: the trigger
list still holds an entry tagged with the id, unchanged from before the third
dispatch, so a further trigger can fire for that id. -/
theorem retry_exhaustion_trigger_cex :
    (slookup stFail3.scheduled_posts pid1).map Job.status = some "failed" ∧
    (slookup stFail3.scheduled_posts pid1).map Job.attempts = some 3 ∧
    stFail3.triggers.any (fun tr => tr.tag == pid1) = true ∧
    stFail3.triggers = stFail2.triggers := by decide

/-- C3 amended: for a job whose publish attempt reports failure,
`_process_post` applies the retry policy — if the incremented attempt count is
below 3 the job is set back to `"scheduled"` and re-armed by a trigger 30
minutes from now, and at the third dispatch attempt the status becomes
`"failed"`; however the trigger registry is left unchanged on exhaustion (the
failed job's trigger is not cleared), so the claim's "no further trigger
fires for that id" does not hold. -/
theorem retry_policy (st : SchedState) (fs : String → Bool) (api : Bool)
    (now : Nat) (post_id p : String) (j : Job)
    (hj : slookup st.scheduled_posts post_id = some j)
    (hplat : j.platform = "tiktok")
    (hpath : j.content_path = ContentPath.single p)
    (hfs : fs p = true) (hapi : api = false) :
    (j.attempts + 1 < 3 →
      slookup (process_post st fs api now post_id).1.scheduled_posts post_id =
        some { j with status := "scheduled", attempts := j.attempts + 1,
                      scheduled_time := fmtDT (now + 1800),
                      error := some "Simulated TikTok API error" } ∧
      mkTrigger post_id (now + 1800) ∈
        (process_post st fs api now post_id).1.triggers) ∧
    (j.attempts + 1 ≥ 3 →
      slookup (process_post st fs api now post_id).1.scheduled_posts post_id =
        some { j with status := "failed", attempts := j.attempts + 1,
                      error := some "Simulated TikTok API error" } ∧
      (process_post st fs api now post_id).1.triggers = st.triggers) := by
  have hlow : pyLower "tiktok" = "tiktok" := by decide
  constructor
  · intro hA
    have hA3 : ¬ j.attempts + 1 ≥ 3 := by omega
    constructor
    · simp [process_post, hj, hplat, hlow, post_to_tiktok, hpath, tiktokGo,
        hfs, hapi, hA3, reschedule_post, slookup_supdate_self]
    · simp [process_post, hj, hplat, hlow, post_to_tiktok, hpath, tiktokGo,
        hfs, hapi, hA3, reschedule_post, slookup_supdate_self]
  · intro hA
    constructor
    · simp [process_post, hj, hplat, hlow, post_to_tiktok, hpath, tiktokGo,
        hfs, hapi, hA, slookup_supdate_self]
    · simp [process_post, hj, hplat, hlow, post_to_tiktok, hpath, tiktokGo,
        hfs, hapi, hA]

/-- Witness for C3 (amended): the first failing dispatch of `stOne` re-arms
the job 30 minutes later; the third failing dispatch (from `stFail2`, where
the job already has 2 attempts) marks it failed and leaves the triggers
untouched. -/
theorem retry_policy_witness :
    (slookup stOne.scheduled_posts pid1 = some jOne ∧ fsAll "video1.mp4" = true) ∧
    (jOne.attempts + 1 < 3 →
      slookup (process_post stOne fsAll false 2000 pid1).1.scheduled_posts
          pid1 =
        some { jOne with status := "scheduled", attempts := jOne.attempts + 1,
                         scheduled_time := fmtDT (2000 + 1800),
                         error := some "Simulated TikTok API error" } ∧
      mkTrigger pid1 (2000 + 1800) ∈
        (process_post stOne fsAll false 2000 pid1).1.triggers) ∧
    (jOne.attempts + 1 < 3) :=
  ⟨⟨by decide, by decide⟩,
    (retry_policy stOne fsAll false 2000 pid1 "video1.mp4" jOne (by decide)
      (by decide) (by decide) (by decide) rfl).1,
    by decide⟩

/-! ## Structural lemma: one dispatch rewrites exactly the dispatched entry -/

/-- Every branch of `_process_post` on a present id ends by writing back a
single record for that id: the store becomes `supdate` of the old store, the
written record keeps the job's `id`, has `attempts` incremented by one, and
keeps the old `posted_time` unless its status is `"posted"`. -/
theorem process_post_shape (st : SchedState) (fs : String → Bool) (api : Bool)
    (now : Nat) (post_id : String) (j : Job)
    (hj : slookup st.scheduled_posts post_id = some j) :
    ∃ r : Job,
      (process_post st fs api now post_id).1.scheduled_posts =
        supdate st.scheduled_posts post_id r ∧
      r.id = j.id ∧ r.attempts = j.attempts + 1 ∧
      (r.status ≠ "posted" → r.posted_time = j.posted_time) := by
  by_cases ht : pyLower j.platform = "tiktok"
  · cases hpt : post_to_tiktok fs api
        { j with status := "processing", attempts := j.attempts + 1 } with
    | exn msg =>
      refine ⟨{ j with
          status := "error", attempts := j.attempts + 1,
          error := some msg }, ?_, rfl, rfl, fun _ => rfl⟩
      simp [process_post, hj, ht, hpt, supdate_supdate_self]
    | ok pd2 success =>
      obtain ⟨e, he⟩ := post_to_tiktok_ok_shape _ _ _ _ _ hpt
      subst he
      cases success with
      | true =>
        refine ⟨{ j with
            status := "posted", attempts := j.attempts + 1,
            posted_time := some (fmtDT now), error := none }, ?_, rfl, rfl,
          fun hs => absurd rfl hs⟩
        simp [process_post, hj, ht, hpt, supdate_supdate_self]
      | false =>
        by_cases hA : j.attempts + 1 ≥ 3
        · refine ⟨{ j with
              status := "failed", attempts := j.attempts + 1,
              error := e }, ?_, rfl, rfl, fun _ => rfl⟩
          simp [process_post, hj, ht, hpt, hA, supdate_supdate_self]
        · refine ⟨{ j with
              scheduled_time := fmtDT (now + 1800), status := "scheduled",
              attempts := j.attempts + 1, error := e }, ?_, rfl, rfl,
            fun _ => rfl⟩
          simp [process_post, hj, ht, hpt, hA, reschedule_post,
            slookup_supdate_self, supdate_supdate_self]
  · by_cases hi : pyLower j.platform = "instagram"
    · cases hpi : post_to_instagram fs api
          { j with status := "processing", attempts := j.attempts + 1 } with
      | exn msg =>
        refine ⟨{ j with
            status := "error", attempts := j.attempts + 1,
            error := some msg }, ?_, rfl, rfl, fun _ => rfl⟩
        simp [process_post, hj, ht, hi, hpi, supdate_supdate_self]
      | ok pd2 success =>
        obtain ⟨e, he⟩ := post_to_instagram_ok_shape _ _ _ _ _ hpi
        subst he
        cases success with
        | true =>
          refine ⟨{ j with
              status := "posted", attempts := j.attempts + 1,
              posted_time := some (fmtDT now), error := none }, ?_, rfl, rfl,
            fun hs => absurd rfl hs⟩
          simp [process_post, hj, ht, hi, hpi, supdate_supdate_self]
        | false =>
          by_cases hA : j.attempts + 1 ≥ 3
          · refine ⟨{ j with
                status := "failed", attempts := j.attempts + 1,
                error := e }, ?_, rfl, rfl, fun _ => rfl⟩
            simp [process_post, hj, ht, hi, hpi, hA, supdate_supdate_self]
          · refine ⟨{ j with
                scheduled_time := fmtDT (now + 1800), status := "scheduled",
                attempts := j.attempts + 1, error := e }, ?_, rfl, rfl,
              fun _ => rfl⟩
            simp [process_post, hj, ht, hi, hpi, hA, reschedule_post,
              slookup_supdate_self, supdate_supdate_self]
    · by_cases hA : j.attempts + 1 ≥ 3
      · refine ⟨{ j with
            status := "failed", attempts := j.attempts + 1,
            error := some ("Unsupported platform: " ++ j.platform) }, ?_, rfl,
          rfl, fun _ => rfl⟩
        simp [process_post, hj, ht, hi, hA, supdate_supdate_self]
      · refine ⟨{ j with
            scheduled_time := fmtDT (now + 1800), status := "scheduled",
            attempts := j.attempts + 1,
            error := some ("Unsupported platform: " ++ j.platform) }, ?_, rfl,
          rfl, fun _ => rfl⟩
        simp [process_post, hj, ht, hi, hA, reschedule_post,
          slookup_supdate_self, supdate_supdate_self]

/-! ## C4 — id uniqueness and immutability -/

/-- C4 as stated is false: the generated id has only second granularity
(`post_<int(time.time())>_<platform>`), so two distinct `schedule_post` calls
within the same second for the same platform generate the same id, and the
second call silently overwrites the first job — the store holds one job, not
two. -/
theorem id_collision_cex :
    (schedule_post emptyState 100 "tiktok" (ContentPath.single "a.mp4") "c1"
      [] 5000).2 =
      (schedule_post (schedule_post emptyState 100 "tiktok"
          (ContentPath.single "a.mp4") "c1" [] 5000).1 100 "tiktok"
        (ContentPath.single "b.mp4") "c2" [] 6000).2 ∧
    (schedule_post (schedule_post emptyState 100 "tiktok"
        (ContentPath.single "a.mp4") "c1" [] 5000).1 100 "tiktok"
      (ContentPath.single "b.mp4") "c2" [] 6000).1.scheduled_posts.length =
      1 := by decide

/-- C4 amended: two `schedule_post` calls generate distinct ids whenever they
differ in the observed `time.time()` second or in the platform tag (the id
collision of the counterexample needs both equal); and a job's id is never
mutated after creation — `schedule_post` writes a job whose `id` field equals
its key, and `cancel_post`, `reschedule_post` and `_process_post` preserve
the `id` field of every stored job. -/
theorem job_ids_amended :
    (∀ (st1 st2 : SchedState) (t1 t2 : Nat) (pf1 pf2 : String)
        (c1 c2 : ContentPath) (cap1 cap2 : String)
        (hs1 hs2 : List String) (pt1 pt2 : Nat),
      (t1, pf1) ≠ (t2, pf2) →
      (schedule_post st1 t1 pf1 c1 cap1 hs1 pt1).2 ≠
        (schedule_post st2 t2 pf2 c2 cap2 hs2 pt2).2) ∧
    (∀ (st : SchedState) (t : Nat) (pf : String) (c : ContentPath)
        (cap : String) (hs : List String) (pt : Nat) (k : String),
      (slookup (schedule_post st t pf c cap hs pt).1.scheduled_posts k).map
          Job.id =
        if k = (schedule_post st t pf c cap hs pt).2 then some k
        else (slookup st.scheduled_posts k).map Job.id) ∧
    (∀ (st : SchedState) (pid k : String),
      (slookup (cancel_post st pid).1.scheduled_posts k).map Job.id =
        (slookup st.scheduled_posts k).map Job.id) ∧
    (∀ (st : SchedState) (pid : String) (t : Nat) (k : String),
      (slookup (reschedule_post st pid t).1.scheduled_posts k).map Job.id =
        (slookup st.scheduled_posts k).map Job.id) ∧
    (∀ (st : SchedState) (fs : String → Bool) (api : Bool) (now : Nat)
        (pid k : String),
      (slookup (process_post st fs api now pid).1.scheduled_posts k).map
          Job.id = (slookup st.scheduled_posts k).map Job.id) := by
  refine ⟨?_, ?_, ?_, ?_, ?_⟩
  · intro st1 st2 t1 t2 pf1 pf2 c1 c2 cap1 cap2 hs1 hs2 pt1 pt2 hne heq
    have hinj := mkId_inj t1 t2 pf1 pf2 heq
    exact hne (by rw [Prod.mk.injEq]; exact hinj)
  · intro st t pf c cap hs pt k
    by_cases hk : k = mkId t pf
    · subst hk
      have hpos : mkId t pf = (schedule_post st t pf c cap hs pt).2 := rfl
      rw [if_pos hpos]
      simp [schedule_post, slookup_supdate_self]
    · have hneg : ¬ k = (schedule_post st t pf c cap hs pt).2 := hk
      rw [if_neg hneg]
      simp [schedule_post, slookup_supdate_ne _ _ _ _ hk]
  · intro st pid k
    cases hj : slookup st.scheduled_posts pid with
    | none => simp [cancel_post, hj]
    | some j =>
      by_cases hk : k = pid
      · subst hk
        simp [cancel_post, hj, slookup_supdate_self]
      · simp [cancel_post, hj, slookup_supdate_ne _ _ _ _ hk]
  · intro st pid t k
    cases hj : slookup st.scheduled_posts pid with
    | none => simp [reschedule_post, hj]
    | some j =>
      by_cases hk : k = pid
      · subst hk
        simp [reschedule_post, hj, slookup_supdate_self]
      · simp [reschedule_post, hj, slookup_supdate_ne _ _ _ _ hk]
  · intro st fs api now pid k
    cases hj : slookup st.scheduled_posts pid with
    | none => simp [process_post, hj]
    | some j =>
      obtain ⟨r, hsp, hid, -, -⟩ := process_post_shape st fs api now pid j hj
      rw [hsp]
      by_cases hk : k = pid
      · subst hk
        rw [slookup_supdate_self, hj]
        simp [hid]
      · rw [slookup_supdate_ne _ _ _ _ hk]

/-- Witness for C4 (amended): both hypotheses discharged concretely — calls
one second apart on the same platform yield distinct ids. -/
theorem job_ids_amended_witness :
    (((3 : Nat), "tiktok") ≠ ((4 : Nat), "tiktok")) ∧
    (schedule_post emptyState 3 "tiktok" (ContentPath.single "a") "c" []
        10).2 ≠
      (schedule_post emptyState 4 "tiktok" (ContentPath.single "a") "c" []
        10).2 :=
  ⟨by decide,
    job_ids_amended.1 emptyState emptyState 3 4 "tiktok" "tiktok"
      (ContentPath.single "a") (ContentPath.single "a") "c" "c" [] [] 10 10
      (by decide)⟩

/-! ## C7 — successful dispatch -/

/-- C7: after a dispatch whose publish attempt succeeds, the job's status is
`"posted"`, `posted_time` is set to the dispatch time, `error` is cleared to
`none`, and `attempts` equals 1 when it was the first dispatch; moreover (for
any dispatch whatsoever) `posted_time` is changed only when the resulting
status is `"posted"`, i.e. only on successful publish. -/
theorem success_path (st : SchedState) (fs : String → Bool) (api : Bool)
    (now : Nat) (post_id p : String) (j : Job)
    (hj : slookup st.scheduled_posts post_id = some j)
    (hplat : j.platform = "tiktok")
    (hpath : j.content_path = ContentPath.single p)
    (hfs : fs p = true) (hapi : api = true) :
    (slookup (process_post st fs api now post_id).1.scheduled_posts post_id =
      some { j with
          status := "posted", attempts := j.attempts + 1,
          posted_time := some (fmtDT now), error := none }) ∧
    (j.attempts = 0 →
      (slookup (process_post st fs api now post_id).1.scheduled_posts
          post_id).map Job.attempts = some 1) ∧
    (∀ (st2 : SchedState) (fs2 : String → Bool) (api2 : Bool) (now2 : Nat)
        (id2 : String) (j2 j2' : Job),
      slookup st2.scheduled_posts id2 = some j2 →
      slookup (process_post st2 fs2 api2 now2 id2).1.scheduled_posts id2 =
        some j2' →
      j2'.status ≠ "posted" → j2'.posted_time = j2.posted_time) := by
  have hlow : pyLower "tiktok" = "tiktok" := by decide
  have h1 : slookup (process_post st fs api now post_id).1.scheduled_posts
      post_id =
      some { j with
          status := "posted", attempts := j.attempts + 1,
          posted_time := some (fmtDT now), error := none } := by
    simp [process_post, hj, hplat, hlow, post_to_tiktok, hpath, tiktokGo,
      hfs, hapi, slookup_supdate_self]
  refine ⟨h1, ?_, ?_⟩
  · intro h0
    rw [h1]
    simp [h0]
  · intro st2 fs2 api2 now2 id2 j2 j2' hj2 hafter hstatus
    obtain ⟨r, hsp, -, -, hpt⟩ := process_post_shape st2 fs2 api2 now2 id2 j2
      hj2
    rw [hsp, slookup_supdate_self] at hafter
    injection hafter with hr
    subst hr
    exact hpt hstatus

/-- Witness for C7: the first dispatch of `stOne` with every file present and
a succeeding simulated API call posts the job with `attempts = 1`. -/
theorem success_path_witness :
    (slookup stOne.scheduled_posts pid1 = some jOne ∧ jOne.attempts = 0 ∧
      fsAll "video1.mp4" = true) ∧
    (slookup (process_post stOne fsAll true 2000 pid1).1.scheduled_posts
        pid1 =
      some { jOne with
          status := "posted", attempts := jOne.attempts + 1,
          posted_time := some (fmtDT 2000), error := none }) ∧
    (slookup (process_post stOne fsAll true 2000 pid1).1.scheduled_posts
        pid1).map Job.attempts = some 1 := by
  have hc := success_path stOne fsAll true 2000 pid1 "video1.mp4" jOne
    (by decide) (by decide) (by decide) (by decide) rfl
  exact ⟨⟨by decide, by decide, by decide⟩, hc.1, hc.2.1 (by decide)⟩

/-! ## C9 — bulk scheduling distribution -/

theorem slookup_map_range_none (n : Nat) (g : Nat → String) (v : Nat → Job)
    (key : String) (h : ∀ a, a < n → g a ≠ key) :
    slookup ((List.range n).map (fun a => (g a, v a))) key = none := by
  induction n with
  | zero => simp [slookup]
  | succ m ih =>
    rw [List.range_succ, List.map_append]
    rw [slookup_append_right _ _ _ (ih (fun a ha => h a (by omega)))]
    simp [slookup, h m (by omega)]

theorem range_map_succ_shift {α : Type} (n : Nat) (f : Nat → α) :
    (List.range (n + 1)).map f = f 0 :: (List.range n).map (fun a => f (a + 1)) := by
  rw [List.range_succ_eq_map, List.map_cons, List.map_map]
  rfl

/-- The job record written by one `schedule_post` call of the bulk loop:
call counter `k` (so `time.time()` reads `clock k`), time slot `slot` of the
day containing `dayDate`. -/
def slotJob (clock : Nat → Nat) (platform : String)
    (optTimes : List (Nat × Nat)) (dayDate : Nat) (k slot : Nat)
    (it : ContentPath × String × List String) : Job :=
  { id := mkId (clock k) platform, platform := platform,
    content_path := it.1, caption := it.2.1, hashtags := it.2.2,
    scheduled_time := fmtDT (mkSlotTime optTimes dayDate slot),
    status := "scheduled", attempts := 0, posted_time := none, error := none }

/-- Closed form of the inner (per-day) loop of `schedule_multiple_posts`:
with an injective clock and a store containing none of the upcoming ids, the
loop appends one entry, one trigger and one returned id per item, in order. -/
theorem scheduleSlots_closed (clock : Nat → Nat) (platform : String)
    (optTimes : List (Nat × Nat)) (dayDate : Nat)
    (hclock : ∀ a b, clock a = clock b → a = b) :
    ∀ (its : List (ContentPath × String × List String)) (st : SchedState)
      (k slot : Nat),
      (∀ a, k ≤ a →
        slookup st.scheduled_posts (mkId (clock a) platform) = none) →
      scheduleSlots clock platform optTimes dayDate st k slot its =
        ({ scheduled_posts := st.scheduled_posts ++
             (List.range its.length).map (fun a =>
               (mkId (clock (k + a)) platform,
                slotJob clock platform optTimes dayDate (k + a) (slot + a)
                  (its.getD a (ContentPath.single "", "", [])))),
           triggers := st.triggers ++
             (List.range its.length).map (fun a =>
               mkTrigger (mkId (clock (k + a)) platform)
                 (mkSlotTime optTimes dayDate (slot + a))) },
         ((List.range its.length).map
            (fun a => mkId (clock (k + a)) platform),
          k + its.length)) := by
  intro its
  induction its with
  | nil =>
    intro st k slot hfresh
    simp [scheduleSlots]
  | cons it rest ih =>
    intro st k slot hfresh
    have hf0 : slookup st.scheduled_posts (mkId (clock k) platform) = none :=
      hfresh k (Nat.le_refl k)
    have hfresh1 : ∀ a, k + 1 ≤ a →
        slookup (st.scheduled_posts ++
          [(mkId (clock k) platform,
            slotJob clock platform optTimes dayDate k slot it)])
          (mkId (clock a) platform) = none := by
      intro a ha
      rw [slookup_append_right _ _ _ (hfresh a (by omega))]
      have hne : mkId (clock k) platform ≠ mkId (clock a) platform := by
        intro he
        have := hclock k a (mkId_inj _ _ _ _ he).1
        omega
      simp [slookup, hne]
    have hstep : scheduleSlots clock platform optTimes dayDate st k slot
        (it :: rest) =
        ((scheduleSlots clock platform optTimes dayDate
            { scheduled_posts := st.scheduled_posts ++
                [(mkId (clock k) platform,
                  slotJob clock platform optTimes dayDate k slot it)],
              triggers := st.triggers ++
                [mkTrigger (mkId (clock k) platform)
                  (mkSlotTime optTimes dayDate slot)] }
            (k + 1) (slot + 1) rest).1,
         (mkId (clock k) platform ::
            (scheduleSlots clock platform optTimes dayDate
              { scheduled_posts := st.scheduled_posts ++
                  [(mkId (clock k) platform,
                    slotJob clock platform optTimes dayDate k slot it)],
                triggers := st.triggers ++
                  [mkTrigger (mkId (clock k) platform)
                    (mkSlotTime optTimes dayDate slot)] }
              (k + 1) (slot + 1) rest).2.1,
          (scheduleSlots clock platform optTimes dayDate
            { scheduled_posts := st.scheduled_posts ++
                [(mkId (clock k) platform,
                  slotJob clock platform optTimes dayDate k slot it)],
              triggers := st.triggers ++
                [mkTrigger (mkId (clock k) platform)
                  (mkSlotTime optTimes dayDate slot)] }
            (k + 1) (slot + 1) rest).2.2)) := by
      simp only [scheduleSlots, schedule_post, slotJob]
      rw [supdate_of_slookup_none _ _ _ hf0]
    rw [hstep, ih _ (k + 1) (slot + 1) hfresh1]
    refine congrArg₂ Prod.mk (congrArg₂ SchedState.mk ?_ ?_)
      (congrArg₂ Prod.mk ?_ ?_)
    · rw [List.length_cons, range_map_succ_shift, List.append_assoc,
        List.singleton_append]
      refine congrArg (st.scheduled_posts ++ ·) (congrArg₂ List.cons rfl ?_)
      refine List.map_congr_left fun a _ => ?_
      have h1 : k + 1 + a = k + (a + 1) := by omega
      have h2 : slot + 1 + a = slot + (a + 1) := by omega
      rw [h1, h2, List.getD_cons_succ]
    · rw [List.length_cons, range_map_succ_shift, List.append_assoc,
        List.singleton_append]
      refine congrArg (st.triggers ++ ·) (congrArg₂ List.cons rfl ?_)
      refine List.map_congr_left fun a _ => ?_
      have h1 : k + 1 + a = k + (a + 1) := by omega
      have h2 : slot + 1 + a = slot + (a + 1) := by omega
      rw [h1, h2]
    · rw [List.length_cons, range_map_succ_shift]
      refine congrArg₂ List.cons rfl ?_
      refine List.map_congr_left fun a _ => ?_
      have h1 : k + 1 + a = k + (a + 1) := by omega
      rw [h1]
    · rw [List.length_cons]
      dsimp only
      omega

theorem getD_take (l : List (ContentPath × String × List String)) (n i : Nat)
    (d : ContentPath × String × List String) (h : i < n) :
    (l.take n).getD i d = l.getD i d := by
  rw [List.getD_eq_getElem?_getD, List.getD_eq_getElem?_getD,
    List.getElem?_take, if_pos h]

theorem getD_drop (l : List (ContentPath × String × List String)) (n i : Nat)
    (d : ContentPath × String × List String) :
    (l.drop n).getD i d = l.getD (n + i) d := by
  rw [List.getD_eq_getElem?_getD, List.getD_eq_getElem?_getD,
    List.getElem?_drop]

theorem range_map_day_split {α : Type} (p m : Nat) (f g1 g2 : Nat → α)
    (h1 : ∀ a, a < p → g1 a = f a)
    (h2 : ∀ b, b < m → g2 b = f (p + b)) :
    (List.range (p + m)).map f =
      (List.range p).map g1 ++ (List.range m).map g2 := by
  rw [List.range_add, List.map_append, List.map_map]
  refine congrArg₂ (· ++ ·) ?_ ?_
  · exact (List.map_congr_left fun a ha => h1 a (List.mem_range.mp ha)).symm
  · exact (List.map_congr_left fun b hb => h2 b (List.mem_range.mp hb)).symm

/-- Closed form of the day loop of `schedule_multiple_posts`: with enough
days, an injective clock and none of the upcoming ids in the store, item `a`
(0-based) is scheduled on day `a / p` after the start date, in time slot
`a % p` of that day, with call counter `k + a`. -/
theorem scheduleDaysLoop_closed (clock : Nat → Nat) (platform : String)
    (optTimes : List (Nat × Nat)) (p : Nat) (hp : 1 ≤ p)
    (hclock : ∀ a b, clock a = clock b → a = b) :
    ∀ (dl : Nat) (its : List (ContentPath × String × List String))
      (st : SchedState) (k d0 : Nat),
      its.length ≤ dl * p →
      (∀ a, k ≤ a →
        slookup st.scheduled_posts (mkId (clock a) platform) = none) →
      scheduleDaysLoop clock platform optTimes p dl st k d0 its =
        ({ scheduled_posts := st.scheduled_posts ++
             (List.range its.length).map (fun a =>
               (mkId (clock (k + a)) platform,
                slotJob clock platform optTimes (d0 + a / p * 86400) (k + a)
                  (a % p) (its.getD a (ContentPath.single "", "", [])))),
           triggers := st.triggers ++
             (List.range its.length).map (fun a =>
               mkTrigger (mkId (clock (k + a)) platform)
                 (mkSlotTime optTimes (d0 + a / p * 86400) (a % p))) },
         (List.range its.length).map fun a => mkId (clock (k + a)) platform) := by
  intro dl
  induction dl with
  | zero =>
    intro its st k d0 hlen hfresh
    have hnil : its = [] := List.eq_nil_of_length_eq_zero (by omega)
    subst hnil
    simp [scheduleDaysLoop]
  | succ dl ih =>
    intro its st k d0 hlen hfresh
    have htake_len : (its.take (min p its.length)).length = min p its.length := by
      rw [List.length_take]
      omega
    have hslots := scheduleSlots_closed clock platform optTimes d0 hclock
      (its.take (min p its.length)) st k 0 hfresh
    have hfreshDrop : ∀ a, k + min p its.length ≤ a →
        slookup (st.scheduled_posts ++
          (List.range (its.take (min p its.length)).length).map (fun b =>
            (mkId (clock (k + b)) platform,
             slotJob clock platform optTimes d0 (k + b) (0 + b)
               ((its.take (min p its.length)).getD b
                 (ContentPath.single "", "", [])))))
          (mkId (clock a) platform) = none := by
      intro a ha
      rw [slookup_append_right _ _ _ (hfresh a (by omega))]
      refine slookup_map_range_none _ _ _ _ ?_
      intro b hb he
      have hab := hclock (k + b) a (mkId_inj _ _ _ _ he).1
      rw [htake_len] at hb
      omega
    have hdrop_len : (its.drop (min p its.length)).length ≤ dl * p := by
      rw [List.length_drop]
      rw [Nat.succ_mul] at hlen
      omega
    have hIH := ih (its.drop (min p its.length))
      { scheduled_posts := st.scheduled_posts ++
          (List.range (its.take (min p its.length)).length).map (fun b =>
            (mkId (clock (k + b)) platform,
             slotJob clock platform optTimes d0 (k + b) (0 + b)
               ((its.take (min p its.length)).getD b
                 (ContentPath.single "", "", [])))),
        triggers := st.triggers ++
          (List.range (its.take (min p its.length)).length).map (fun b =>
            mkTrigger (mkId (clock (k + b)) platform)
              (mkSlotTime optTimes d0 (0 + b))) }
      (k + min p its.length) (d0 + 86400) hdrop_len hfreshDrop
    simp only [scheduleDaysLoop]
    rw [hslots]
    dsimp only
    rw [htake_len]
    rw [htake_len] at hIH
    rw [hIH]
    by_cases hcase : its.length ≤ p
    · have hmin : min p its.length = its.length := by omega
      rw [hmin]
      have htake : its.take its.length = its := List.take_length its
      have hdropnil : its.drop its.length = [] := List.drop_length its
      rw [htake, hdropnil]
      simp only [List.length_nil, List.range_zero, List.map_nil,
        List.append_nil]
      refine congrArg₂ Prod.mk (congrArg₂ SchedState.mk ?_ ?_) rfl
      · refine congrArg (st.scheduled_posts ++ ·) ?_
        refine List.map_congr_left fun a ha => ?_
        have halt : a < its.length := List.mem_range.mp ha
        have hdiv : a / p = 0 := Nat.div_eq_of_lt (by omega)
        have hmod : a % p = a := Nat.mod_eq_of_lt (by omega)
        rw [hdiv, hmod, Nat.zero_mul, Nat.add_zero, Nat.zero_add]
      · refine congrArg (st.triggers ++ ·) ?_
        refine List.map_congr_left fun a ha => ?_
        have halt : a < its.length := List.mem_range.mp ha
        have hdiv : a / p = 0 := Nat.div_eq_of_lt (by omega)
        have hmod : a % p = a := Nat.mod_eq_of_lt (by omega)
        rw [hdiv, hmod, Nat.zero_mul, Nat.add_zero, Nat.zero_add]
    · have hmin : min p its.length = p := by omega
      rw [hmin]
      obtain ⟨m, hm⟩ : ∃ m, its.length = p + m := ⟨its.length - p, by omega⟩
      have hdroplen2 : (its.drop p).length = m := by
        rw [List.length_drop]
        omega
      have hsplit1 : (List.range its.length).map (fun a =>
          (mkId (clock (k + a)) platform,
           slotJob clock platform optTimes (d0 + a / p * 86400) (k + a)
             (a % p) (its.getD a (ContentPath.single "", "", [])))) =
          (List.range p).map (fun a =>
            (mkId (clock (k + a)) platform,
             slotJob clock platform optTimes d0 (k + a) (0 + a)
               ((its.take p).getD a (ContentPath.single "", "", [])))) ++
          (List.range m).map (fun b =>
            (mkId (clock (k + p + b)) platform,
             slotJob clock platform optTimes (d0 + 86400 + b / p * 86400)
               (k + p + b) (b % p)
               ((its.drop p).getD b (ContentPath.single "", "", [])))) := by
        rw [hm]
        refine range_map_day_split p m _ _ _ ?_ ?_
        · intro a ha
          have hdiv : a / p = 0 := Nat.div_eq_of_lt ha
          have hmod : a % p = a := Nat.mod_eq_of_lt ha
          rw [hdiv, hmod, Nat.zero_mul, Nat.add_zero, Nat.zero_add,
            getD_take _ _ _ _ ha]
        · intro b hb
          have hdiv : (p + b) / p = 1 + b / p := by
            rw [Nat.add_comm p b, Nat.add_div_right _ (by omega)]
            omega
          have hmod : (p + b) % p = b % p := Nat.add_mod_left p b
          have hidx : k + p + b = k + (p + b) := by omega
          have hday : d0 + 86400 + b / p * 86400 =
              d0 + (1 + b / p) * 86400 := by
            have h86 : (1 + b / p) * 86400 = 86400 + b / p * 86400 := by
              ring
            omega
          rw [getD_drop, hidx, hmod, hday, hdiv]
      have hsplit2 : (List.range its.length).map (fun a =>
          mkTrigger (mkId (clock (k + a)) platform)
            (mkSlotTime optTimes (d0 + a / p * 86400) (a % p))) =
          (List.range p).map (fun a =>
            mkTrigger (mkId (clock (k + a)) platform)
              (mkSlotTime optTimes d0 (0 + a))) ++
          (List.range m).map (fun b =>
            mkTrigger (mkId (clock (k + p + b)) platform)
              (mkSlotTime optTimes (d0 + 86400 + b / p * 86400) (b % p))) := by
        rw [hm]
        refine range_map_day_split p m _ _ _ ?_ ?_
        · intro a ha
          have hdiv : a / p = 0 := Nat.div_eq_of_lt ha
          have hmod : a % p = a := Nat.mod_eq_of_lt ha
          rw [hdiv, hmod, Nat.zero_mul, Nat.add_zero, Nat.zero_add]
        · intro b hb
          have hdiv : (p + b) / p = 1 + b / p := by
            rw [Nat.add_comm p b, Nat.add_div_right _ (by omega)]
            omega
          have hmod : (p + b) % p = b % p := Nat.add_mod_left p b
          have hidx : k + p + b = k + (p + b) := by omega
          have hday : d0 + 86400 + b / p * 86400 =
              d0 + (1 + b / p) * 86400 := by
            have h86 : (1 + b / p) * 86400 = 86400 + b / p * 86400 := by
              ring
            omega
          rw [hidx, hmod, hday, hdiv]
      have hsplit3 : (List.range its.length).map (fun a =>
          mkId (clock (k + a)) platform) =
          (List.range p).map (fun a => mkId (clock (k + a)) platform) ++
          (List.range m).map (fun b => mkId (clock (k + p + b)) platform) := by
        rw [hm]
        refine range_map_day_split p m _ _ _ (fun a _ => rfl) ?_
        intro b hb
        have hidx : k + p + b = k + (p + b) := by omega
        rw [hidx]
      rw [hsplit1, hsplit2, hsplit3, hdroplen2]
      refine congrArg₂ Prod.mk (congrArg₂ SchedState.mk ?_ ?_) rfl
      · rw [List.append_assoc]
      · rw [List.append_assoc]

theorem le_ceil_mul (N p : Nat) (hp : 1 ≤ p) :
    N ≤ (N + p - 1) / p * p := by
  rcases Nat.eq_zero_or_pos N with h0 | hN
  · subst h0
    simp
  · have hnum : N + p - 1 = (N - 1) + p := by omega
    rw [hnum, Nat.add_div_right _ (by omega)]
    have hdm := Nat.div_add_mod (N - 1) p
    have hmod : (N - 1) % p < p := Nat.mod_lt _ (by omega)
    have hmul : ((N - 1) / p + 1) * p = (N - 1) / p * p + p := by ring
    have hcomm : (N - 1) / p * p = p * ((N - 1) / p) := Nat.mul_comm _ _
    omega

theorem ceil_succ_div (N p : Nat) (hp : 1 ≤ p) (hN : 1 ≤ N) :
    (N + p - 1) / p = (N - 1) / p + 1 := by
  have hnum : N + p - 1 = (N - 1) + p := by omega
  rw [hnum, Nat.add_div_right _ (by omega)]

theorem countP_range_div (p d : Nat) (hp : 1 ≤ p) :
    ∀ N, (List.range N).countP (fun j => j / p == d) =
      min (d * p + p) N - d * p := by
  intro N
  induction N with
  | zero => simp
  | succ n ih =>
    rw [List.range_succ, List.countP_append, ih]
    by_cases hd : n / p = d
    · have h1 : d * p ≤ n := by
        have hle := Nat.div_mul_le_self n p
        rw [hd] at hle
        exact hle
      have h2 : n < (d + 1) * p := by
        have hlt : n / p < d + 1 := by omega
        exact (Nat.div_lt_iff_lt_mul (by omega)).1 hlt
      have hcount : List.countP (fun j => j / p == d) [n] = 1 := by
        simp [List.countP_cons, hd]
      have h3 : (d + 1) * p = d * p + p := by ring
      rw [hcount]
      omega
    · have hq := Nat.div_add_mod n p
      have hmodlt : n % p < p := Nat.mod_lt _ (by omega)
      have hcount : List.countP (fun j => j / p == d) [n] = 0 := by
        simp [List.countP_cons, hd]
      rw [hcount]
      rcases Nat.lt_or_ge (n / p) d with hlt | hge
      · have hle : n / p + 1 ≤ d := by omega
        have h5 : (n / p + 1) * p ≤ d * p := Nat.mul_le_mul_right p hle
        have h6 : (n / p + 1) * p = p * (n / p) + p := by ring
        omega
      · have hgt : d < n / p := by omega
        have h5 : (d + 1) * p ≤ n / p * p :=
          Nat.mul_le_mul_right p (by omega)
        have h6 : n / p * p = p * (n / p) := Nat.mul_comm _ _
        have h7 : (d + 1) * p = d * p + p := by ring
        omega

theorem optTimes_getD (pf : String) (n k : Nat) (hk : k < n) :
    (platformOptimalTimes pf n).getD k (0, 0) = ((9 + 3 * k) % 24, 0) := by
  rw [platformOptimalTimes,
    List.getD_eq_getElem _ _ (by simpa using hk)]
  simp

theorem zip3_getD (cp : List ContentPath) (cap : List String)
    (hl : List (List String)) (i : Nat) (h1 : cp.length = cap.length)
    (h2 : cap.length = hl.length) (hi : i < cp.length) :
    (cp.zip (cap.zip hl)).getD i (ContentPath.single "", "", []) =
      (cp.getD i (ContentPath.single ""), cap.getD i "", hl.getD i []) := by
  have hzlen : (cap.zip hl).length = cap.length := by
    rw [List.length_zip]
    omega
  have hlen : (cp.zip (cap.zip hl)).length = cp.length := by
    rw [List.length_zip, hzlen]
    omega
  rw [List.getD_eq_getElem _ _ (by omega), List.getElem_zip,
    List.getElem_zip, List.getD_eq_getElem _ _ hi,
    List.getD_eq_getElem _ _ (by omega), List.getD_eq_getElem _ _ (by omega)]

/-- C9: for equal-length inputs of `N` content items, `posts_per_day = p ≥ 1`
and an injective clock (the bulk calls observe distinct `time.time()`
seconds), `schedule_multiple_posts` creates exactly `N` jobs: item `i` is
scheduled on day `i / p` after the start date in slot `i % p`, so the jobs
spread over `ceil(N / p)` consecutive days, every day `d` with `d + 1 <
ceil(N / p)` holds exactly `p` jobs, and the last day holds the remaining
`N - (ceil(N / p) - 1) * p` jobs (between 1 and `p`). -/
theorem bulk_schedule_distribution (clock : Nat → Nat) (startDate : Nat)
    (platform : String) (p : Nat) (cp : List ContentPath)
    (cap : List String) (hl : List (List String)) (hp : 1 ≤ p)
    (hlen1 : cp.length = cap.length) (hlen2 : cap.length = hl.length)
    (hclock : ∀ a b, clock a = clock b → a = b) :
    (schedule_multiple_posts emptyState clock startDate platform p cp cap hl =
      .ok
        ({ scheduled_posts := (List.range cp.length).map (fun i =>
             (mkId (clock i) platform,
              slotJob clock platform (platformOptimalTimes platform p)
                (startDate + i / p * 86400) i (i % p)
                (cp.getD i (ContentPath.single ""), cap.getD i "",
                 hl.getD i []))),
           triggers := (List.range cp.length).map (fun i =>
             mkTrigger (mkId (clock i) platform)
               (mkSlotTime (platformOptimalTimes platform p)
                 (startDate + i / p * 86400) (i % p))) },
         (List.range cp.length).map fun i => mkId (clock i) platform)) ∧
    ((List.range cp.length).map (fun i =>
        (mkId (clock i) platform,
         slotJob clock platform (platformOptimalTimes platform p)
           (startDate + i / p * 86400) i (i % p)
           (cp.getD i (ContentPath.single ""), cap.getD i "",
            hl.getD i [])))).length = cp.length ∧
    (∀ i, i < cp.length →
      dayIndex (mkSlotTime (platformOptimalTimes platform p)
        (startDate + i / p * 86400) (i % p)) = dayIndex startDate + i / p) ∧
    (∀ i, i < cp.length → i / p < (cp.length + p - 1) / p) ∧
    (∀ d, d + 1 < (cp.length + p - 1) / p →
      (List.range cp.length).countP (fun i => i / p == d) = p) ∧
    (1 ≤ cp.length →
      (List.range cp.length).countP
          (fun i => i / p == (cp.length + p - 1) / p - 1) =
        cp.length - ((cp.length + p - 1) / p - 1) * p ∧
      1 ≤ cp.length - ((cp.length + p - 1) / p - 1) * p ∧
      cp.length - ((cp.length + p - 1) / p - 1) * p ≤ p) := by
  have hcond : ¬ (cp.length ≠ cap.length ∨ cap.length ≠ hl.length) := by
    simp [hlen1, hlen2]
  have hitslen : (cp.zip (cap.zip hl)).length = cp.length := by
    rw [List.length_zip, List.length_zip]
    omega
  have hlenle : (cp.zip (cap.zip hl)).length ≤ (cp.length + p - 1) / p * p := by
    rw [hitslen]
    exact le_ceil_mul cp.length p hp
  have hfresh : ∀ a, 0 ≤ a →
      slookup emptyState.scheduled_posts (mkId (clock a) platform) = none :=
    fun a _ => rfl
  have hdays := scheduleDaysLoop_closed clock platform
    (platformOptimalTimes platform p) p hp hclock ((cp.length + p - 1) / p)
    (cp.zip (cap.zip hl)) emptyState 0 startDate hlenle hfresh
  refine ⟨?_, ?_, ?_, ?_, ?_, ?_⟩
  · simp only [schedule_multiple_posts, if_neg hcond]
    rw [hdays]
    refine congrArg Except.ok
      (congrArg₂ Prod.mk (congrArg₂ SchedState.mk ?_ ?_) ?_)
    · simp only [emptyState, List.nil_append, hitslen]
      refine List.map_congr_left fun a ha => ?_
      have halt : a < cp.length := List.mem_range.mp ha
      rw [Nat.zero_add, zip3_getD cp cap hl a hlen1 hlen2 halt]
    · simp only [emptyState, List.nil_append, hitslen]
      refine List.map_congr_left fun a ha => ?_
      rw [Nat.zero_add]
    · rw [hitslen]
      refine List.map_congr_left fun a ha => ?_
      rw [Nat.zero_add]
  · simp
  · intro i hi
    have hmodp : i % p < p := Nat.mod_lt _ (by omega)
    rw [mkSlotTime, optTimes_getD platform p (i % p) hmodp]
    have hhour : (9 + 3 * (i % p)) % 24 < 24 := Nat.mod_lt _ (by omega)
    rw [dayStart, dayIndex, dayIndex]
    omega
  · intro i hi
    have hN1 : 1 ≤ cp.length := by omega
    rw [ceil_succ_div cp.length p hp hN1]
    have hle : i / p ≤ (cp.length - 1) / p :=
      Nat.div_le_div_right (by omega)
    omega
  · intro d hd
    have hN1 : 1 ≤ cp.length := by
      by_contra h0
      have hz : cp.length = 0 := by omega
      rw [hz] at hd
      have : (0 + p - 1) / p = 0 := Nat.div_eq_of_lt (by omega)
      omega
    rw [countP_range_div p d hp cp.length]
    rw [ceil_succ_div cp.length p hp hN1] at hd
    have hle : d + 1 ≤ (cp.length - 1) / p := by omega
    have hmul : (d + 1) * p ≤ (cp.length - 1) / p * p :=
      Nat.mul_le_mul_right p hle
    have hdms : (cp.length - 1) / p * p ≤ cp.length - 1 :=
      Nat.div_mul_le_self _ _
    have hdp : (d + 1) * p = d * p + p := by ring
    omega
  · intro hN1
    rw [ceil_succ_div cp.length p hp hN1]
    have hsimp : (cp.length - 1) / p + 1 - 1 = (cp.length - 1) / p :=
      Nat.add_sub_cancel _ _
    rw [hsimp, countP_range_div p _ hp cp.length]
    have hdms : (cp.length - 1) / p * p ≤ cp.length - 1 :=
      Nat.div_mul_le_self _ _
    have hdm := Nat.div_add_mod (cp.length - 1) p
    have hmod : (cp.length - 1) % p < p := Nat.mod_lt _ (by omega)
    have hcomm : (cp.length - 1) / p * p = p * ((cp.length - 1) / p) :=
      Nat.mul_comm _ _
    refine ⟨by omega, by omega, by omega⟩

/-- Seven content items for the concrete bulk-scheduling instance. -/
def cps7 : List ContentPath :=
  [.single "f0", .single "f1", .single "f2", .single "f3", .single "f4",
   .single "f5", .single "f6"]

/-- Seven captions for the concrete bulk-scheduling instance. -/
def caps7 : List String := ["c0", "c1", "c2", "c3", "c4", "c5", "c6"]

/-- Seven hashtag lists for the concrete bulk-scheduling instance. -/
def hts7 : List (List String) := [[], [], [], [], [], [], []]

/-- Witness for C9 at the spec's concrete instance: 7 items, 2 posts per day,
identity clock — `ceil(7 / 2) = 4` days are used, days 0-2 hold 2 jobs each
and day 3 holds 1. -/
theorem bulk_schedule_distribution_witness :
    ((1 ≤ 2) ∧ cps7.length = caps7.length ∧ caps7.length = hts7.length ∧
      (∀ a b : Nat, (fun k : Nat => k) a = (fun k : Nat => k) b → a = b) ∧
      (cps7.length + 2 - 1) / 2 = 4) ∧
    ((schedule_multiple_posts emptyState (fun k => k) 86400 "tiktok" 2 cps7
        caps7 hts7 =
      .ok
        ({ scheduled_posts := (List.range cps7.length).map (fun i =>
             (mkId i "tiktok",
              slotJob (fun k => k) "tiktok" (platformOptimalTimes "tiktok" 2)
                (86400 + i / 2 * 86400) i (i % 2)
                (cps7.getD i (ContentPath.single ""), caps7.getD i "",
                 hts7.getD i []))),
           triggers := (List.range cps7.length).map (fun i =>
             mkTrigger (mkId i "tiktok")
               (mkSlotTime (platformOptimalTimes "tiktok" 2)
                 (86400 + i / 2 * 86400) (i % 2))) },
         (List.range cps7.length).map fun i => mkId i "tiktok")) ∧
    ((List.range cps7.length).map (fun i =>
        (mkId i "tiktok",
         slotJob (fun k => k) "tiktok" (platformOptimalTimes "tiktok" 2)
           (86400 + i / 2 * 86400) i (i % 2)
           (cps7.getD i (ContentPath.single ""), caps7.getD i "",
            hts7.getD i [])))).length = cps7.length ∧
    (∀ i, i < cps7.length →
      dayIndex (mkSlotTime (platformOptimalTimes "tiktok" 2)
        (86400 + i / 2 * 86400) (i % 2)) = dayIndex 86400 + i / 2) ∧
    (∀ i, i < cps7.length → i / 2 < (cps7.length + 2 - 1) / 2) ∧
    (∀ d, d + 1 < (cps7.length + 2 - 1) / 2 →
      (List.range cps7.length).countP (fun i => i / 2 == d) = 2) ∧
    (1 ≤ cps7.length →
      (List.range cps7.length).countP
          (fun i => i / 2 == (cps7.length + 2 - 1) / 2 - 1) =
        cps7.length - ((cps7.length + 2 - 1) / 2 - 1) * 2 ∧
      1 ≤ cps7.length - ((cps7.length + 2 - 1) / 2 - 1) * 2 ∧
      cps7.length - ((cps7.length + 2 - 1) / 2 - 1) * 2 ≤ 2)) :=
  ⟨⟨by decide, by decide, by decide, fun a b h => h, by decide⟩,
    bulk_schedule_distribution (fun k => k) 86400 "tiktok" 2 cps7 caps7 hts7
      (by decide) (by decide) (by decide) (fun a b h => h)⟩

end BeatSocial
